import Mathlib

/-!
Verification development for the RING-0 lost & found multi-writer sync engine
(`src/sync-manager.js`, class `PropertySyncManager`).

The JavaScript is embedded shallowly:

* a property record is a `Property` structure whose string fields use `""` for
  the JavaScript falsy values `undefined`/`null`/`""`, and whose `lastUpdated`
  uses `0` for a missing timestamp (the source reads `p.lastUpdated || 0` and
  tests `!p.lastUpdated`, so `0` and "missing" are indistinguishable there);
* `Date.now()` is threaded as an explicit `now : Nat` argument (one clock value
  per engine call);
* `this.isAdminPanel` is threaded as `isAdmin : Bool`;
* `localStorage` plus the in-memory fields of the manager form a `ManagerState`;
* code that can throw is modelled with `Except String`.
-/

namespace RingZero

/-- A property record, matching the fields handled by
`mergePropertyData` (`fieldsToMerge` plus `status`) together with the
identifier and the sync metadata `lastUpdated` / `updatedBy`. -/
structure Property where
  id : Nat
  name : String
  regNumber : String
  description : String
  location : String
  type : String
  finderContact : String
  claimantName : String
  claimantContact : String
  claimProof : String
  image : String
  status : String
  lastUpdated : Nat
  updatedBy : String
  deriving DecidableEq, Repr

/-- One step of the field loop in `mergePropertyData`
(`sync-manager.js` lines 1057-1061): the merged record starts from field value
`a` (from `property1`) and takes `b` (from `property2`) exactly when `b` is
truthy and `a` is falsy or the placeholder `'N/A'`. -/
def mergeField (a b : String) : String :=
  if b ≠ "" ∧ (a = "" ∨ a = "N/A") then b else a

/-- `mergePropertyData(property1, property2)` (`sync-manager.js` lines
1049-1073): start from a copy of `property1`, union in non-empty fields of
`property2`, prefer `'claimed'` for `status`, then stamp
`lastUpdated = Date.now()` and `updatedBy = 'merged'`. -/
def mergePropertyData (property1 property2 : Property) (now : Nat) : Property :=
  { id := property1.id
    name := mergeField property1.name property2.name
    regNumber := mergeField property1.regNumber property2.regNumber
    description := mergeField property1.description property2.description
    location := mergeField property1.location property2.location
    type := mergeField property1.type property2.type
    finderContact := mergeField property1.finderContact property2.finderContact
    claimantName := mergeField property1.claimantName property2.claimantName
    claimantContact := mergeField property1.claimantContact property2.claimantContact
    claimProof := mergeField property1.claimProof property2.claimProof
    image := mergeField property1.image property2.image
    status := if property2.status = "claimed" then "claimed" else property1.status
    lastUpdated := now
    updatedBy := "merged" }

/-- The metadata-repair step of `resolveConflict` (`sync-manager.js` lines
1011-1019): a record whose `lastUpdated` is falsy gets `lastUpdated`
stamped with `Date.now()` and `updatedBy` stamped with the local role. -/
def repairMeta (isAdmin : Bool) (now : Nat) (p : Property) : Property :=
  if p.lastUpdated = 0 then
    { p with lastUpdated := now, updatedBy := if isAdmin then "admin" else "user" }
  else p

/-- `resolveConflict(currentProperty, newProperty)` (`sync-manager.js` lines
986-1044).  `none` models the `return null` ("mark for deletion") branch.
The timestamps compared by rules 2/3 are read *before* the metadata repair
(source lines 1007-1008), while rule 1 reads `updatedBy` *after* it; the
in-place mutation of the source is modelled by `repairMeta`. -/
def resolveConflict (isAdmin : Bool) (now : Nat)
    (currentProperty newProperty : Property) : Option Property :=
  -- `currentExists`/`newExists` are `currentProperty && currentProperty.id`
  -- and `newProperty && newProperty.id`: the id `0` is falsy in JS
  if ¬ currentProperty.id ≠ 0 ∧ newProperty.id ≠ 0 then some newProperty
  else if currentProperty.id ≠ 0 ∧ ¬ newProperty.id ≠ 0 then none
  else
    let currentTimestamp := currentProperty.lastUpdated
    let newTimestamp := newProperty.lastUpdated
    let cur := repairMeta isAdmin now currentProperty
    let new := repairMeta isAdmin now newProperty
    if new.updatedBy = "admin" ∧ cur.updatedBy ≠ "admin" then some new
    else if newTimestamp > currentTimestamp then some new
    else if newTimestamp = currentTimestamp then
      some (mergePropertyData cur new now)
    else some cur

/-- A JavaScript `Map` keyed by `Nat`, as used in `mergeData`: `set` on an
existing key replaces the value in place (keeping the original insertion
position), `set` on a fresh key appends; `values()` is insertion order. -/
def upsert (m : List (Nat × Property)) (k : Nat) (v : Property) :
    List (Nat × Property) :=
  if m.any (fun e => e.1 = k) then
    m.map (fun e => if e.1 = k then (k, v) else e)
  else m ++ [(k, v)]

/-- `new Map(currentData.map(p => [p.id, p]))` (`sync-manager.js` line 954). -/
def buildMap (l : List Property) : List (Nat × Property) :=
  l.foldl (fun m p => upsert m p.id p) []

/-- The record ordering used by `mergedData.sort((a, b) => a.id - b.id)`
(`sync-manager.js` line 973). -/
def idLe (a b : Property) : Prop := a.id ≤ b.id

instance : DecidableRel idLe := fun a b => Nat.decLe a.id b.id

/-- The body of `newData.forEach` in `mergeData` (`sync-manager.js` lines
957-967): an id already in the map is resolved through `resolveConflict`,
a fresh id is adopted.  `resolveConflict` never returns `null` when the two
records share their id (lemma `resolveConflict_isSome_of_id_eq` below), so the
`getD` default is dead code kept only for totality. -/
def mergeStep (isAdmin : Bool) (now : Nat) (m : List (Nat × Property))
    (newProperty : Property) : List (Nat × Property) :=
  match m.find? (fun e => e.1 = newProperty.id) with
  | some e =>
      upsert m newProperty.id ((resolveConflict isAdmin now e.2 newProperty).getD e.2)
  | none => upsert m newProperty.id newProperty

/-- `mergeData(currentData, newData)` (`sync-manager.js` lines 951-981):
index `currentData` by id, fold `newData` through `mergeStep`, then return the
map's values sorted by id. -/
def mergeData (isAdmin : Bool) (now : Nat) (currentData newData : List Property) :
    List Property :=
  let currentMap := buildMap currentData
  let m := newData.foldl (mergeStep isAdmin now) currentMap
  List.insertionSort idLe (m.map Prod.snd)

/-- The payload of a queued change: `add`/`delete` entries carry a single
record object (`delete` carries the bare `{id: propertyId}` object, modelled
as a record with id and all other fields falsy), while `update` entries carry
the whole collection array passed to `update(data)`. -/
inductive QueueData where
  | record (p : Property)
  | arr (l : List Property)
  deriving DecidableEq, Repr

/-- `change.data.id` as read by `applyChange`: an array has no `id` property,
so for an `arr` payload the JavaScript value is `undefined`, modelled `none`;
`p.id === undefined` is false for every record, so a `findIndex` against
`none` finds nothing. -/
def QueueData.idOf : QueueData → Option Nat
  | .record p => some p.id
  | .arr _ => none

/-- An offline-queue entry `{type, data, timestamp}` as pushed by
`update`/`add`/`delete` (`sync-manager.js` lines 778-782, 828-832, 875-879). -/
structure QueueEntry where
  type : String
  data : QueueData
  timestamp : Nat
  deriving DecidableEq, Repr

/-- `currentData.reduce((max, p) => p.id > max ? p.id : max, 0)`
(`sync-manager.js` lines 583 and 842). -/
def maxIdFold (l : List Property) : Nat :=
  l.foldl (fun mx p => if p.id > mx then p.id else mx) 0

/-- `applyChange(currentData, change)` (`sync-manager.js` lines 579-607).
The source mutates `change.data.id` in place for an `add`; the pure model
returns the updated collection together with the (possibly mutated) entry.
An `add` whose payload is an array is unreachable from the engine's API
(only `add(property)` queues `add` entries, always with a single record), so
that branch leaves the state unchanged. -/
def applyChange (currentData : List Property) (change : QueueEntry) :
    List Property × QueueEntry :=
  if change.type = "add" then
    match change.data with
    | .record p =>
        let p' := { p with id := maxIdFold currentData + 1 }
        (currentData ++ [p'], { change with data := .record p' })
    | .arr _ => (currentData, change)
  else if change.type = "update" then
    let updateIndex := currentData.findIdx (fun p => some p.id = change.data.idOf)
    if updateIndex < currentData.length then
      match change.data with
      | .record p => (currentData.set updateIndex p, change)
      | .arr _ => (currentData, change)
    else (currentData, change)
  else if change.type = "delete" then
    let deleteIndex := currentData.findIdx (fun p => some p.id = change.data.idOf)
    if deleteIndex < currentData.length then
      (currentData.eraseIdx deleteIndex, change)
    else (currentData, change)
  else (currentData, change)

/-- The persisted and in-memory state touched by the operations under
verification: the `ring0_properties` collection, the `ring0_last_update`
storage key, the manager's `lastKnownUpdate` field and the persisted offline
queue. -/
structure ManagerState where
  data : List Property
  lastUpdateKey : Nat
  lastKnownUpdate : Nat
  offlineQueue : List QueueEntry
  deriving DecidableEq, Repr

/-- `saveData(data)` (`sync-manager.js` lines 932-946): persist the
collection, stamp the last-update key with `Date.now()`, and set
`lastKnownUpdate` to `Date.now()`. -/
def saveData (now : Nat) (σ : ManagerState) (d : List Property) : ManagerState :=
  { σ with data := d, lastUpdateKey := now, lastKnownUpdate := now }

/-- `processOfflineQueue()` (`sync-manager.js` lines 531-574).  `online`
models `navigator.onLine`; `ok i` models whether the `try` block for the
entry at index `i` runs to completion (the only throwing call is
`saveData`, reached after `applyChange` has already mutated the entry).
Entries are visited in FIFO order; successful indices are collected and the
queue is then filtered down to the unprocessed (mutated) entries and
persisted.  The trailing `requestSync()` only broadcasts and is elided. -/
def processOfflineQueue (online : Bool) (ok : Nat → Bool) (now : Nat)
    (σ : ManagerState) : ManagerState :=
  if online = false then σ
  else if σ.offlineQueue.length = 0 then σ
  else
    let r := σ.offlineQueue.enum.foldl
      (fun (acc : ManagerState × List Nat × List QueueEntry) ic =>
        let (s, processed, entries) := acc
        let (updatedData, change') := applyChange s.data ic.2
        if ok ic.1 then
          (saveData now s updatedData, processed ++ [ic.1], entries ++ [change'])
        else (s, processed, entries ++ [change']))
      (σ, [], [])
    { r.1 with
      offlineQueue :=
        (r.2.2.enum.filter (fun x => decide (x.1 ∉ r.2.1))).map Prod.snd }

/-- The result object resolved by `update`/`add`/`delete`: `{success,
queued?, data?, property?}`. -/
structure OpOutcome where
  success : Bool
  queued : Bool
  data : Option (List Property)
  property : Option Property
  deriving DecidableEq, Repr

/-- `{ success: false, queued: true }`. -/
def queuedOutcome : OpOutcome :=
  { success := false, queued := true, data := none, property := none }

/-- `add(property)` (`sync-manager.js` lines 815-862).  `none` models a
falsy / non-object argument, which throws (`reject`) before the connectivity
check; offline, the entry is queued and the call resolves
`{success: false, queued: true}`; online, the record gets id `max + 1`, is
appended, persisted and broadcast (`broadcastChange` re-stamps the
last-update key with the same clock value, a no-op here). -/
def add (online : Bool) (now : Nat) (σ : ManagerState) (property : Option Property) :
    Except String (ManagerState × OpOutcome) :=
  match property with
  | none => .error "Invalid property data"
  | some p =>
    if online = false then
      .ok ({ σ with offlineQueue := σ.offlineQueue ++ [⟨"add", .record p, now⟩] },
           queuedOutcome)
    else
      let currentData := σ.data
      let p' := { p with id := maxIdFold currentData + 1 }
      .ok (saveData now σ (currentData ++ [p']),
           { success := true, queued := false, data := none, property := some p' })

/-- `update(data)` (`sync-manager.js` lines 765-810).  `none` models a
falsy or non-array argument (rejected before any I/O); offline, the whole
array is queued as the entry's `data`; online, the incoming collection is
merged into the current one via `mergeData` and persisted. -/
def update (isAdmin online : Bool) (now : Nat) (σ : ManagerState)
    (data : Option (List Property)) : Except String (ManagerState × OpOutcome) :=
  match data with
  | none => .error "Invalid data format"
  | some d =>
    if online = false then
      .ok ({ σ with offlineQueue := σ.offlineQueue ++ [⟨"update", .arr d, now⟩] },
           queuedOutcome)
    else
      let mergedData := mergeData isAdmin now σ.data d
      .ok (saveData now σ mergedData,
           { success := true, queued := false, data := some mergedData, property := none })

/-- The bare `{ id: propertyId }` object queued by an offline `delete`:
every other JavaScript property of that object is `undefined`. -/
def idOnly (propertyId : Nat) : Property :=
  { id := propertyId, name := "", regNumber := "", description := "",
    location := "", type := "", finderContact := "", claimantName := "",
    claimantContact := "", claimProof := "", image := "", status := "",
    lastUpdated := 0, updatedBy := "" }

/-- `delete(propertyId)` (`sync-manager.js` lines 867-913): offline, queue
`{type: 'delete', data: {id: propertyId}}` and resolve queued; online, remove
the record with that id (rejecting with `'Property not found'` when absent). -/
def delete (online : Bool) (now : Nat) (σ : ManagerState) (propertyId : Nat) :
    Except String (ManagerState × OpOutcome) :=
  if online = false then
    .ok ({ σ with offlineQueue := σ.offlineQueue ++ [⟨"delete", .record (idOnly propertyId), now⟩] },
         queuedOutcome)
  else
    let currentData := σ.data
    let index := currentData.findIdx (fun p => p.id = propertyId)
    if h : index < currentData.length then
      .ok (saveData now σ (currentData.eraseIdx index),
           { success := true, queued := false, data := none,
             property := some (currentData.get ⟨index, h⟩) })
    else .error "Property not found"

/-- A broadcast `ChangeMessage` envelope. -/
structure Message where
  type : String
  data : List Property
  timestamp : Nat
  deriving DecidableEq, Repr

/-- `handleDataUpdate(data, timestamp, source)` (`sync-manager.js` lines
192-229).  A timestamp at or below `lastKnownUpdate` is dropped with no state
change and no reply.  Otherwise `lastKnownUpdate := timestamp`, the incoming
collection is merged and saved (`saveData` then overwrites `lastKnownUpdate`
and the last-update key with `Date.now()`), the last-update key is re-stamped
with the message timestamp, and an admin panel replies with a
`sync_response`.  The `catch` path is unreachable in the pure model because
`mergeData` is total. -/
def handleDataUpdate (isAdmin : Bool) (now : Nat) (σ : ManagerState)
    (data : List Property) (timestamp : Nat) : ManagerState × List Message :=
  if timestamp ≤ σ.lastKnownUpdate then (σ, [])
  else
    let σ1 := { σ with lastKnownUpdate := timestamp }
    let mergedData := mergeData isAdmin now σ1.data data
    let σ2 := saveData now σ1 mergedData
    let σ3 := { σ2 with lastUpdateKey := timestamp }
    (σ3, if isAdmin then [⟨"sync_response", mergedData, now⟩] else [])

/-- `this.broadcastChannel.postMessage(message)`: throws on a runtime
transport failure. -/
def postMessage (postFails : Bool) : Except String Unit :=
  if postFails then .error "postMessage failed" else .ok ()

/-- The body of the `try` block of `sendBroadcast` (`sync-manager.js` lines
1101-1105): post only when a channel exists, then log. -/
def sendBroadcastBody (hasChannel postFails : Bool) (message : Message) :
    Except String (List String) :=
  if hasChannel then do
    postMessage postFails
    pure ["Broadcast sent: " ++ message.type]
  else pure []

/-- `sendBroadcast(message)` (`sync-manager.js` lines 1100-1110): the body
runs under `try`/`catch`; an error is converted into a log line and the call
returns normally. -/
def sendBroadcast (hasChannel postFails : Bool) (message : Message) :
    Except String (List String) :=
  match sendBroadcastBody hasChannel postFails message with
  | .ok logs => .ok logs
  | .error e => .ok ["Send broadcast failed: " ++ e]

/-- `localStorage.setItem(this.LAST_UPDATE_KEY, Date.now().toString())`:
throws on a storage (quota) failure, otherwise stamps the last-update key. -/
def setLastUpdateKey (storeFails : Bool) (now : Nat) (σ : ManagerState) :
    Except String ManagerState :=
  if storeFails then .error "storage setItem failed"
  else .ok { σ with lastUpdateKey := now }

/-- The body of the `try` block of `broadcastChange` (`sync-manager.js`
lines 1079-1091): send a `data_update` when a channel exists (via
`sendBroadcast`, which already swallows its own failures), then stamp the
last-update key for the storage-event fallback. -/
def broadcastChangeBody (hasChannel postFails storeFails : Bool) (now : Nat)
    (σ : ManagerState) (data : List Property) :
    Except String (ManagerState × List String) := do
  let logs ←
    if hasChannel then sendBroadcast hasChannel postFails ⟨"data_update", data, now⟩
    else pure []
  let σ' ← setLastUpdateKey storeFails now σ
  pure (σ', logs)

/-- `broadcastChange(data)` (`sync-manager.js` lines 1078-1095): the body
runs under `try`/`catch`; a failure is logged and the call returns normally
with the state unchanged past the failure point. -/
def broadcastChange (hasChannel postFails storeFails : Bool) (now : Nat)
    (σ : ManagerState) (data : List Property) :
    Except String (ManagerState × List String) :=
  match broadcastChangeBody hasChannel postFails storeFails now σ data with
  | .ok r => .ok r
  | .error e => .ok (σ, ["Broadcast failed: " ++ e])

instance {e a : Type} [DecidableEq e] [DecidableEq a] : DecidableEq (Except e a) := fun x y =>
  match x, y with
  | .error u, .error v => if h : u = v then .isTrue (by rw [h]) else .isFalse (by simp [h])
  | .ok u, .ok v => if h : u = v then .isTrue (by rw [h]) else .isFalse (by simp [h])
  | .error _, .ok _ => .isFalse (by simp)
  | .ok _, .error _ => .isFalse (by simp)

/-- Restamping a record the way the equal-timestamp branch of
`resolveConflict` does: `updatedBy = 'merged'`, `lastUpdated = Date.now()`,
all other fields untouched. -/
def selfMerged (now : Nat) (p : Property) : Property :=
  { p with lastUpdated := now, updatedBy := "merged" }

/-- A record with every JavaScript-visible field falsy. -/
def blank : Property :=
  { id := 0, name := "", regNumber := "", description := "", location := "",
    type := "", finderContact := "", claimantName := "", claimantContact := "",
    claimProof := "", image := "", status := "", lastUpdated := 0, updatedBy := "" }

/-- A manager state with empty storage and queue. -/
def emptyState : ManagerState :=
  { data := [], lastUpdateKey := 0, lastKnownUpdate := 0, offlineQueue := [] }

/-- Concrete input: the `primary-writer` (`admin`) version held locally … -/
def curAdmin : Property :=
  { blank with id := 1, name := "Bag", lastUpdated := 100, updatedBy := "admin" }

/-- … against a strictly newer `secondary-writer` (`user`) incoming version. -/
def newUser : Property :=
  { blank with id := 1, name := "Bag2", lastUpdated := 200, updatedBy := "user" }

/-- Concrete input: the local `user` version that has already reached status
`claimed` at t = 100 … -/
def curClaimed : Property :=
  { blank with id := 1, status := "claimed", lastUpdated := 100, updatedBy := "user" }

/-- … against an incoming `admin` version with status `unclaimed` and an
edited description at the older t = 90. -/
def newAdminUnclaimed : Property :=
  { blank with
    id := 1, status := "unclaimed", description := "blue", lastUpdated := 90, updatedBy := "admin" }

/-- Concrete record used to probe merge idempotence. -/
def sampleRecord : Property :=
  { blank with
    id := 1, name := "Bag", lastUpdated := 100, updatedBy := "user", status := "unclaimed" }

/-- Concrete input: equal timestamps, `status` empty on the local side … -/
def curNoStatus : Property :=
  { blank with id := 1, lastUpdated := 100, updatedBy := "user", status := "" }

/-- … and non-empty (`unclaimed`) on the incoming side. -/
def newUnclaimed : Property :=
  { blank with id := 1, lastUpdated := 100, updatedBy := "user", status := "unclaimed" }

/-- Pre-drain record nr. 1: the record an offline `update` tries to rename. -/
def bike : Property :=
  { blank with id := 1, name := "Bike", lastUpdated := 10, updatedBy := "user" }

/-- Pre-drain record nr. 2: the record an offline `delete` removes. -/
def coat : Property :=
  { blank with id := 2, name := "Coat", lastUpdated := 10, updatedBy := "user" }

/-- The renamed version of `bike` inside the collection array queued by the
offline `update` call. -/
def bikeRenamed : Property := { bike with name := "Red Bike" }

/-- The record added while offline (no id yet). -/
def bagAdded : Property := { blank with name := "Bag" }

/-- The pre-drain state produced by calling, while offline,
`add(bagAdded)`, then `update([bikeRenamed, coat])`, then `delete(2)`
on a collection holding `bike` and `coat` (exactly the queue entries those
three calls push, see `add`/`update`/`delete` above). -/
def preDrainState : ManagerState :=
  { data := [bike, coat], lastUpdateKey := 0, lastKnownUpdate := 0,
    offlineQueue :=
      [⟨"add", .record bagAdded, 1⟩,
       ⟨"update", .arr [bikeRenamed, coat], 2⟩,
       ⟨"delete", .record (idOnly 2), 3⟩] }

/-- A state whose `lastKnownUpdate` (loaded at `init` from the
`ring0_last_update` key, which other replicas stamp with message timestamps)
is ahead of the local clock. -/
def aheadState : ManagerState :=
  { data := [], lastUpdateKey := 0, lastKnownUpdate := 100, offlineQueue := [] }

/-! ### Record-level lemmas -/

theorem mergeField_self (a : String) : mergeField a a = a := by
  unfold mergeField; split <;> rfl

theorem mergeField_ne_empty {a b : String} (h : a ≠ "" ∨ b ≠ "") :
    mergeField a b ≠ "" := by
  unfold mergeField; split
  · next hc => exact hc.1
  · next hc => by_cases ha : a = "" <;> tauto

theorem repairMeta_id (isAdmin : Bool) (now : Nat) (p : Property) :
    (repairMeta isAdmin now p).id = p.id := by
  unfold repairMeta; split <;> rfl

theorem repairMeta_status (isAdmin : Bool) (now : Nat) (p : Property) :
    (repairMeta isAdmin now p).status = p.status := by
  unfold repairMeta; split <;> rfl

theorem repairMeta_of_ne_zero {p : Property} (isAdmin : Bool) (now : Nat)
    (h : p.lastUpdated ≠ 0) : repairMeta isAdmin now p = p := by
  unfold repairMeta; exact if_neg h

theorem mergePropertyData_id (a b : Property) (now : Nat) :
    (mergePropertyData a b now).id = a.id := rfl

theorem mergePropertyData_status (a b : Property) (now : Nat) :
    (mergePropertyData a b now).status =
      if b.status = "claimed" then "claimed" else a.status := rfl

theorem mergePropertyData_self (p : Property) (now : Nat) :
    mergePropertyData p p now = selfMerged now p := by
  cases p
  simp only [mergePropertyData, mergeField_self, selfMerged]
  split <;> simp_all

theorem selfMerged_repairMeta (isAdmin : Bool) (now : Nat) (p : Property) :
    selfMerged now (repairMeta isAdmin now p) = selfMerged now p := by
  cases p; unfold repairMeta; split <;> rfl

/-- When the two ids are both zero or both non-zero the two exists-checks of
`resolveConflict` cannot fire, so the call reduces to the three tie-break
rules. -/
theorem resolveConflict_rules (isAdmin : Bool) (now : Nat)
    {currentProperty newProperty : Property}
    (hid : currentProperty.id = 0 ↔ newProperty.id = 0) :
    resolveConflict isAdmin now currentProperty newProperty =
      (let cur := repairMeta isAdmin now currentProperty
       let new := repairMeta isAdmin now newProperty
       if new.updatedBy = "admin" ∧ cur.updatedBy ≠ "admin" then some new
       else if newProperty.lastUpdated > currentProperty.lastUpdated then some new
       else if newProperty.lastUpdated = currentProperty.lastUpdated then
         some (mergePropertyData cur new now)
       else some cur) := by
  have hA : ¬ (¬ currentProperty.id ≠ 0 ∧ newProperty.id ≠ 0) :=
    fun hc => hc.2 (hid.mp (not_not.mp hc.1))
  have hB : ¬ (currentProperty.id ≠ 0 ∧ ¬ newProperty.id ≠ 0) :=
    fun hc => hc.1 (hid.mpr (not_not.mp hc.2))
  unfold resolveConflict
  rw [if_neg hA, if_neg hB]

theorem resolveConflict_self (isAdmin : Bool) (now : Nat) (p : Property) :
    resolveConflict isAdmin now p p = some (selfMerged now p) := by
  rw [resolveConflict_rules isAdmin now Iff.rfl]
  simp only []
  rw [if_neg (by simp), if_neg (by omega)]
  simp only [if_true, mergePropertyData_self, selfMerged_repairMeta]

theorem resolveConflict_isSome_of_id_eq (isAdmin : Bool) (now : Nat)
    {currentProperty newProperty : Property}
    (hid : currentProperty.id = newProperty.id) :
    (resolveConflict isAdmin now currentProperty newProperty).isSome := by
  rw [resolveConflict_rules isAdmin now (by omega)]
  simp only []
  split_ifs <;> rfl

theorem resolveConflict_getD_id (isAdmin : Bool) (now : Nat)
    {currentProperty newProperty : Property}
    (hid : currentProperty.id = newProperty.id) :
    ((resolveConflict isAdmin now currentProperty newProperty).getD
        currentProperty).id = newProperty.id := by
  rw [resolveConflict_rules isAdmin now (by omega)]
  simp only []
  split_ifs <;>
    simp [repairMeta_id, mergePropertyData_id, hid]

/-! ### Map (association-list) lemmas -/

theorem upsert_of_not_mem {m : List (Nat × Property)} {k : Nat} (v : Property)
    (h : k ∉ m.map Prod.fst) : upsert m k v = m ++ [(k, v)] := by
  unfold upsert
  rw [if_neg]
  simp only [List.any_eq_true, not_exists, not_and]
  intro e he
  simp only [decide_eq_true_eq]
  intro hk
  exact h (hk ▸ List.mem_map_of_mem Prod.fst he)

theorem upsert_keys_of_mem {m : List (Nat × Property)} {k : Nat} (v : Property)
    (h : k ∈ m.map Prod.fst) :
    (upsert m k v).map Prod.fst = m.map Prod.fst := by
  unfold upsert
  rw [if_pos]
  · rw [List.map_map, List.map_congr_left]
    intro e _
    by_cases hk : e.1 = k <;> simp [hk]
  · obtain ⟨e, he, hk⟩ := List.mem_map.mp h
    exact List.any_eq_true.mpr ⟨e, he, by simp [hk]⟩

theorem upsert_mem {m : List (Nat × Property)} {k : Nat} {v : Property}
    {e : Nat × Property} (h : e ∈ upsert m k v) : e = (k, v) ∨ e ∈ m := by
  unfold upsert at h
  split at h
  · obtain ⟨e', he', hee⟩ := List.mem_map.mp h
    by_cases hk : e'.1 = k
    · left; simp [hk] at hee; exact hee.symm
    · right; simp [hk] at hee; exact hee ▸ he'
  · rcases List.mem_append.mp h with h' | h'
    · right; exact h'
    · left; simpa using h'

theorem upsert_replace_middle {A B : List (Nat × Property)} {q : Nat}
    {w v : Property} (hA : q ∉ A.map Prod.fst) (hB : q ∉ B.map Prod.fst) :
    upsert (A ++ ((q, w) :: B)) q v = A ++ ((q, v) :: B) := by
  unfold upsert
  rw [if_pos (by simp)]
  rw [List.map_append]
  congr 1
  · rw [List.map_congr_left (g := id), List.map_id]
    intro e he
    have : e.1 ≠ q := fun hk => hA (hk ▸ List.mem_map_of_mem Prod.fst he)
    simp [this]
  · rw [List.map_cons]
    simp only [if_pos rfl]
    congr 1
    rw [List.map_congr_left (g := id), List.map_id]
    intro e he
    have : e.1 ≠ q := fun hk => hB (hk ▸ List.mem_map_of_mem Prod.fst he)
    simp [this]

theorem foldl_upsert_append (S : List Property) :
    ∀ (m : List (Nat × Property)),
      (m.map Prod.fst ++ S.map Property.id).Nodup →
      S.foldl (fun m p => upsert m p.id p) m = m ++ S.map (fun p => (p.id, p)) := by
  induction S with
  | nil => intro m _; simp
  | cons p S ih =>
    intro m h
    have hnotmem : p.id ∉ m.map Prod.fst := by
      rw [List.nodup_append] at h
      exact fun hm => h.2.2 hm (by simp)
    simp only [List.foldl_cons]
    rw [upsert_of_not_mem p hnotmem, ih (m ++ [(p.id, p)]) (by simpa [List.append_assoc] using h)]
    simp

/-- `new Map(currentData.map(p => [p.id, p]))` for a duplicate-free
collection is just the list of key/value pairs in order. -/
theorem buildMap_eq {S : List Property} (h : (S.map Property.id).Nodup) :
    buildMap S = S.map (fun p => (p.id, p)) := by
  simpa [buildMap] using foldl_upsert_append S [] (by simpa using h)

theorem foldl_mergeStep_self (isAdmin : Bool) (now : Nat) :
    ∀ (todo : List Property) (A : List (Nat × Property)),
      (A.map Prod.fst ++ todo.map Property.id).Nodup →
      todo.foldl (mergeStep isAdmin now) (A ++ todo.map (fun p => (p.id, p))) =
        A ++ todo.map (fun p => (p.id, selfMerged now p)) := by
  intro todo
  induction todo with
  | nil => intro A _; simp
  | cons q rest ih =>
    intro A h
    have hA : q.id ∉ A.map Prod.fst := by
      rw [List.nodup_append] at h
      exact fun hm => h.2.2 hm (by simp)
    have hrest : q.id ∉ rest.map Property.id := by
      rw [List.nodup_append] at h
      have := h.2.1
      simp only [List.map_cons, List.nodup_cons] at this
      exact this.1
    have hrestKeys : q.id ∉ (rest.map (fun p => (p.id, p))).map Prod.fst := by
      simpa [List.map_map, Function.comp] using hrest
    have hfind :
        (A ++ ((q.id, q) :: rest.map (fun p => (p.id, p)))).find?
          (fun e => e.1 = q.id) = some (q.id, q) := by
      rw [List.find?_append]
      have h1 : A.find? (fun e => (decide (e.1 = q.id))) = none := by
        refine List.find?_eq_none.mpr (fun e he => ?_)
        simp only [decide_eq_true_eq]
        exact fun hk => hA (hk ▸ List.mem_map_of_mem Prod.fst he)
      rw [h1, List.find?_cons_of_pos _ (by simp)]
      rfl
    simp only [List.map_cons, List.foldl_cons]
    rw [show mergeStep isAdmin now (A ++ ((q.id, q) :: rest.map (fun p => (p.id, p)))) q =
        upsert (A ++ ((q.id, q) :: rest.map (fun p => (p.id, p)))) q.id
          ((resolveConflict isAdmin now q q).getD q) from by
      unfold mergeStep; rw [hfind]]
    rw [resolveConflict_self]
    simp only [Option.getD_some]
    rw [upsert_replace_middle hA hrestKeys]
    have hstep : A ++ ((q.id, selfMerged now q) :: rest.map (fun p => (p.id, p))) =
        (A ++ [(q.id, selfMerged now q)]) ++ rest.map (fun p => (p.id, p)) := by
      simp
    rw [hstep, ih (A ++ [(q.id, selfMerged now q)]) (by simpa [List.append_assoc] using h)]
    simp

/-- Mapping `resolveConflict` of a duplicate-free collection against itself
restamps every record with `updatedBy = 'merged'` and the merge time. -/
theorem mergeData_self (isAdmin : Bool) (now : Nat) {S : List Property}
    (h : (S.map Property.id).Nodup) :
    mergeData isAdmin now S S =
      List.insertionSort idLe (S.map (selfMerged now)) := by
  unfold mergeData
  rw [buildMap_eq h]
  have hfold := foldl_mergeStep_self isAdmin now S [] (by simpa using h)
  simp only [List.nil_append] at hfold
  simp only []
  rw [hfold, List.map_map]
  congr 1

theorem mergeStep_invariant (isAdmin : Bool) (now : Nat)
    {m : List (Nat × Property)} (q : Property)
    (hnd : (m.map Prod.fst).Nodup) (hinv : ∀ e ∈ m, (e.2).id = e.1) :
    ((mergeStep isAdmin now m q).map Prod.fst).Nodup ∧
      (∀ e ∈ mergeStep isAdmin now m q, (e.2).id = e.1) := by
  unfold mergeStep
  cases hf : m.find? (fun e => e.1 = q.id) with
  | some e =>
    have he : e ∈ m := List.mem_of_find?_eq_some hf
    have hk : e.1 = q.id := by simpa using List.find?_some hf
    have hid : (e.2).id = q.id := (hinv e he).trans hk
    have hkey : q.id ∈ m.map Prod.fst := hk ▸ List.mem_map_of_mem Prod.fst he
    refine ⟨by rw [upsert_keys_of_mem _ hkey]; exact hnd, fun e' he' => ?_⟩
    rcases upsert_mem he' with h' | h'
    · subst h'; exact resolveConflict_getD_id isAdmin now hid
    · exact hinv e' h'
  | none =>
    have hkey : q.id ∉ m.map Prod.fst := by
      intro hmem
      obtain ⟨e, he, hk⟩ := List.mem_map.mp hmem
      have := List.find?_eq_none.mp hf e he
      simp [hk] at this
    constructor
    · rw [upsert_of_not_mem _ hkey]
      simp only [List.map_append]
      exact List.nodup_append.mpr ⟨hnd, by simp, by simpa [List.disjoint_singleton] using hkey⟩
    · intro e' he'
      rcases upsert_mem he' with h' | h'
      · subst h'; rfl
      · exact hinv e' h'

theorem mergeFold_invariant (isAdmin : Bool) (now : Nat) (newData : List Property) :
    ∀ (m : List (Nat × Property)), (m.map Prod.fst).Nodup → (∀ e ∈ m, (e.2).id = e.1) →
      ((newData.foldl (mergeStep isAdmin now) m).map Prod.fst).Nodup ∧
        (∀ e ∈ newData.foldl (mergeStep isAdmin now) m, (e.2).id = e.1) := by
  induction newData with
  | nil => intro m hnd hinv; exact ⟨hnd, hinv⟩
  | cons q rest ih =>
    intro m hnd hinv
    simp only [List.foldl_cons]
    obtain ⟨hnd', hinv'⟩ := mergeStep_invariant isAdmin now q hnd hinv
    exact ih _ hnd' hinv'

theorem upsertFold_invariant (l : List Property) :
    ∀ (m : List (Nat × Property)), (m.map Prod.fst).Nodup → (∀ e ∈ m, (e.2).id = e.1) →
      ((l.foldl (fun m p => upsert m p.id p) m).map Prod.fst).Nodup ∧
        (∀ e ∈ l.foldl (fun m p => upsert m p.id p) m, (e.2).id = e.1) := by
  induction l with
  | nil => intro m hnd hinv; exact ⟨hnd, hinv⟩
  | cons p rest ih =>
    intro m hnd hinv
    simp only [List.foldl_cons]
    refine ih _ ?_ ?_
    · by_cases hkey : p.id ∈ m.map Prod.fst
      · rw [upsert_keys_of_mem _ hkey]; exact hnd
      · rw [upsert_of_not_mem _ hkey]
        simp only [List.map_append]
        exact List.nodup_append.mpr ⟨hnd, by simp, by simpa [List.disjoint_singleton] using hkey⟩
    · intro e' he'
      rcases upsert_mem he' with h' | h'
      · subst h'; rfl
      · exact hinv e' h'

/-- The collection returned by `mergeData` always has pairwise-distinct
identifiers: the `Map` keys are unique and every stored value keeps the id
of its key. -/
theorem mergeData_ids_nodup (isAdmin : Bool) (now : Nat)
    (currentData newData : List Property) :
    ((mergeData isAdmin now currentData newData).map Property.id).Nodup := by
  unfold mergeData
  have hbuild := upsertFold_invariant currentData [] (by simp) (by simp)
  obtain ⟨hnd, hinv⟩ :=
    mergeFold_invariant isAdmin now newData (buildMap currentData) hbuild.1 hbuild.2
  have hvals : ((newData.foldl (mergeStep isAdmin now) (buildMap currentData)).map
      Prod.snd).map Property.id =
      (newData.foldl (mergeStep isAdmin now) (buildMap currentData)).map Prod.fst := by
    rw [List.map_map]
    exact List.map_congr_left (fun e he => hinv e he)
  have hperm :
      ((List.insertionSort idLe ((newData.foldl (mergeStep isAdmin now)
        (buildMap currentData)).map Prod.snd)).map Property.id).Perm
        (((newData.foldl (mergeStep isAdmin now) (buildMap currentData)).map
          Prod.snd).map Property.id) :=
    (List.perm_insertionSort idLe _).map Property.id
  exact hperm.symm.nodup (hvals ▸ hnd)

/-! ### Maximum-id and collection-operation lemmas -/

theorem foldl_maxId_init_le (l : List Property) :
    ∀ a : Nat, a ≤ l.foldl (fun mx p => if p.id > mx then p.id else mx) a := by
  induction l with
  | nil => intro a; simp
  | cons p rest ih =>
    intro a
    simp only [List.foldl_cons]
    calc a ≤ (if p.id > a then p.id else a) := by split <;> omega
      _ ≤ _ := ih _

theorem mem_id_le_foldl_maxId (l : List Property) :
    ∀ (a : Nat) (q : Property), q ∈ l →
      q.id ≤ l.foldl (fun mx p => if p.id > mx then p.id else mx) a := by
  induction l with
  | nil => intro a q hq; simp at hq
  | cons p rest ih =>
    intro a q hq
    simp only [List.foldl_cons]
    rcases List.mem_cons.mp hq with h | h
    · subst h
      calc q.id ≤ (if q.id > a then q.id else a) := by split <;> omega
        _ ≤ _ := foldl_maxId_init_le rest _
    · exact ih _ q h

theorem mem_id_le_maxIdFold {l : List Property} {q : Property} (hq : q ∈ l) :
    q.id ≤ maxIdFold l :=
  mem_id_le_foldl_maxId l 0 q hq

theorem foldl_maxId_attained (l : List Property) :
    ∀ a : Nat, l.foldl (fun mx p => if p.id > mx then p.id else mx) a ∈
      a :: l.map Property.id := by
  induction l with
  | nil => intro a; simp
  | cons p rest ih =>
    intro a
    simp only [List.foldl_cons, List.map_cons]
    rcases List.mem_cons.mp (ih (if p.id > a then p.id else a)) with h | h
    · rw [h]
      split
      · simp
      · simp
    · simp only [List.mem_cons]
      right; right; exact h

/-- `maxIdFold` really is the maximum identifier: for a non-empty collection
it is attained by some record and bounds every record. -/
theorem maxIdFold_spec {l : List Property} (hne : l ≠ []) :
    ∃ q ∈ l, maxIdFold l = q.id ∧ ∀ r ∈ l, r.id ≤ q.id := by
  rcases List.mem_cons.mp (foldl_maxId_attained l 0) with h | h
  · cases l with
    | nil => exact absurd rfl hne
    | cons p rest =>
      have h0 : maxIdFold (p :: rest) = 0 := h
      have h2 : p.id ≤ maxIdFold (p :: rest) :=
        mem_id_le_maxIdFold (by simp)
      refine ⟨p, by simp, by omega, fun r hr => ?_⟩
      have h1 := mem_id_le_maxIdFold hr
      omega
  · obtain ⟨q, hq, hid⟩ := List.mem_map.mp h
    exact ⟨q, hq, hid.symm, fun r hr => hid ▸ mem_id_le_maxIdFold hr⟩

theorem set_getElem_self {α : Type} (l : List α) (n : Nat) (h : n < l.length) :
    l.set n l[n] = l := by
  refine List.ext_getElem (by simp) (fun i h1 h2 => ?_)
  rw [List.getElem_set]
  split
  · next heq => subst heq; rfl
  · rfl

theorem append_fresh_id_nodup {l : List Property} (p : Property)
    (h : (l.map Property.id).Nodup) :
    (((l ++ [{ p with id := maxIdFold l + 1 }]).map Property.id)).Nodup := by
  rw [List.map_append]
  simp only [List.map_cons, List.map_nil]
  refine List.nodup_append.mpr ⟨h, by simp, ?_⟩
  rw [List.disjoint_singleton]
  intro hmem
  obtain ⟨q, hq, hid⟩ := List.mem_map.mp hmem
  have hle := mem_id_le_maxIdFold hq
  have hid' : q.id = maxIdFold l + 1 := hid
  omega

/-- Replacing the record at index `i` by one with the same identifier leaves
the identifier list unchanged, hence duplicate-free. -/
theorem set_preserved_ids {l : List Property} {i : Nat} {p : Property}
    (h : (l.map Property.id).Nodup) (hi : i < l.length) (hp : l[i].id = p.id) :
    ((l.set i p).map Property.id).Nodup := by
  rw [List.map_set]
  have hi2 : i < (l.map Property.id).length := by simpa using hi
  have hp' : p.id = (l.map Property.id)[i] := by
    rw [List.getElem_map]; exact hp.symm
  rw [hp', set_getElem_self (l.map Property.id) i hi2]
  exact h

/-- `applyChange` preserves pairwise-distinct identifiers: an `add` mints a
fresh id strictly above every existing one, an `update` replaces a record by
one carrying the same id, a `delete` removes a record. -/
theorem applyChange_ids_nodup (c : QueueEntry) {l : List Property}
    (h : (l.map Property.id).Nodup) :
    (((applyChange l c).1).map Property.id).Nodup := by
  unfold applyChange
  by_cases hadd : c.type = "add"
  · rw [if_pos hadd]
    cases hd : c.data with
    | record p => exact append_fresh_id_nodup p h
    | arr _ => exact h
  · rw [if_neg hadd]
    by_cases hupd : c.type = "update"
    · rw [if_pos hupd]
      by_cases hlt : l.findIdx (fun p => some p.id = c.data.idOf) < l.length
      · rw [if_pos hlt]
        cases hd : c.data with
        | record p =>
          rw [hd] at hlt
          have hpred := @List.findIdx_getElem Property
            (fun q => some q.id = (QueueData.record p).idOf) l hlt
          exact set_preserved_ids h hlt (Option.some.inj (of_decide_eq_true hpred))
        | arr _ => exact h
      · rw [if_neg hlt]; exact h
    · rw [if_neg hupd]
      by_cases hdel : c.type = "delete"
      · rw [if_pos hdel]
        by_cases hlt : l.findIdx (fun p => some p.id = c.data.idOf) < l.length
        · rw [if_pos hlt]
          exact ((List.eraseIdx_sublist l _).map Property.id).nodup h
        · rw [if_neg hlt]; exact h
      · rw [if_neg hdel]; exact h

/-! ### Claim C1 — authority override -/

/-- C1 (counterexample): the claim "the `primary-writer` (`admin`) side wins
regardless of whether it is passed as the current or the new argument" is
false.  With the `admin` version as `currentProperty` (t = 100) and a `user`
version as `newProperty` (t = 200), rule 1 of `resolveConflict` does not fire
(it only inspects `newProperty.updatedBy`) and last-writer-wins hands the
record to the `user` side. -/
theorem authority_override_cex :
    resolveConflict false 300 curAdmin newUser = some newUser ∧
    curAdmin.updatedBy = "admin" ∧ newUser.updatedBy = "user" ∧
    newUser ≠ curAdmin := by decide

/-- C1 (amended): the `admin` side wins unconditionally only when it is the
*incoming* (`newProperty`) argument; when it is the *current* argument it wins
only if its `lastUpdated` is strictly larger than the incoming one.
(Both records carry a non-zero timestamp, so the metadata repair is inert,
and the incoming id is truthy.) -/
theorem authority_override_amended (isAdmin : Bool) (now : Nat)
    (cur new : Property) (hcur : cur.lastUpdated ≠ 0) (hnew : new.lastUpdated ≠ 0) :
    (new.updatedBy = "admin" → cur.updatedBy ≠ "admin" → new.id ≠ 0 →
      resolveConflict isAdmin now cur new = some new)
    ∧ (cur.updatedBy = "admin" → new.updatedBy ≠ "admin" →
        cur.id ≠ 0 → new.id ≠ 0 → new.lastUpdated < cur.lastUpdated →
      resolveConflict isAdmin now cur new = some cur) := by
  constructor
  · intro h1 h2 h3
    by_cases hc : cur.id = 0
    · unfold resolveConflict
      rw [if_pos ⟨fun hne => hne hc, h3⟩]
    · rw [resolveConflict_rules isAdmin now (iff_of_false hc h3)]
      simp only []
      rw [repairMeta_of_ne_zero isAdmin now hcur, repairMeta_of_ne_zero isAdmin now hnew]
      rw [if_pos ⟨h1, h2⟩]
  · intro h1 h2 h3 h4 h5
    rw [resolveConflict_rules isAdmin now (iff_of_false h3 h4)]
    simp only []
    rw [repairMeta_of_ne_zero isAdmin now hcur, repairMeta_of_ne_zero isAdmin now hnew]
    rw [if_neg (fun hc => hc.2 h1), if_neg (by omega), if_neg (by omega)]

/-- C1 (witness): the amended theorem applied at the concrete inputs of the
claim-dominance scenario (incoming `admin` record wins over a newer local
`user` record). -/
theorem authority_override_amended_witness :
    resolveConflict false 300 curClaimed newAdminUnclaimed = some newAdminUnclaimed :=
  (authority_override_amended false 300 curClaimed newAdminUnclaimed
    (by decide) (by decide)).1 (by decide) (by decide) (by decide)

/-! ### Claim C3 — claim-dominance for `status` -/

/-- C3 (counterexample): the spec's scenario itself refutes the claim.  Local
`user` record with status `claimed` at t = 100, incoming `admin` record with
status `unclaimed` at t = 90: rule 1 (authority) fires before any
claim-dominance check, so the resolved status is `unclaimed`, not `claimed`. -/
theorem claim_dominance_cex :
    (resolveConflict false 200 curClaimed newAdminUnclaimed).map Property.status =
      some "unclaimed" ∧
    curClaimed.status = "claimed" ∧ newAdminUnclaimed.status = "unclaimed" := by decide

/-- C3 (amended): claim-dominance for `status` holds only inside the
equal-timestamp merge branch: when both sides carry the same non-zero
timestamp and the authority rule does not divert to the incoming side,
a `claimed` status on either side forces the resolved status to `claimed`.
It is *not* checked before the authority and recency rules. -/
theorem claim_dominance_amended (isAdmin : Bool) (now : Nat)
    (cur new : Property) (hid : cur.id = new.id)
    (hts : new.lastUpdated = cur.lastUpdated) (h0 : cur.lastUpdated ≠ 0)
    (hauth : ¬ (new.updatedBy = "admin" ∧ cur.updatedBy ≠ "admin"))
    (hclaim : cur.status = "claimed" ∨ new.status = "claimed") :
    (resolveConflict isAdmin now cur new).map Property.status = some "claimed" := by
  rw [resolveConflict_rules isAdmin now (by omega)]
  simp only []
  rw [repairMeta_of_ne_zero isAdmin now h0, repairMeta_of_ne_zero isAdmin now (by omega)]
  rw [if_neg hauth, if_neg (by omega), if_pos hts]
  rw [Option.map_some', mergePropertyData_status]
  split
  · rfl
  · next hne =>
    rcases hclaim with h | h
    · rw [h]
    · exact absurd h hne

/-- C3 (witness): the amended theorem at concrete inputs — equal timestamps,
no admin asymmetry, local status `claimed` — yields status `claimed`. -/
theorem claim_dominance_amended_witness :
    (resolveConflict false 500 curClaimed newUnclaimed).map Property.status =
      some "claimed" :=
  claim_dominance_amended false 500 curClaimed newUnclaimed
    (by decide) (by decide) (by decide) (by decide) (Or.inl (by decide))

/-! ### Claim C5 — field union, no regression -/

/-- C5 (counterexample): `status` is a field of the record, but the merge
branch never unions it: with equal timestamps, an empty local `status` and an
incoming `status = 'unclaimed'`, the resolved record's `status` is empty even
though it was non-empty in one input. -/
theorem field_union_cex :
    (resolveConflict false 200 curNoStatus newUnclaimed).map Property.status =
      some "" ∧
    newUnclaimed.status ≠ "" := by decide

/-- C5 (amended): for equal non-zero timestamps, when the authority rule does
not divert to the incoming side, `resolveConflict` returns the field-level
merge, and each of the ten fields in `fieldsToMerge` (`name`, `regNumber`,
`description`, `location`, `type`, `finderContact`, `claimantName`,
`claimantContact`, `claimProof`, `image`) that is non-empty in either input is
non-empty in the result; `status` is exempt (see the counterexample), it is
only upgraded to `claimed`. -/
theorem field_union_amended (isAdmin : Bool) (now : Nat)
    (cur new : Property) (hid : cur.id = new.id)
    (hts : new.lastUpdated = cur.lastUpdated) (h0 : cur.lastUpdated ≠ 0)
    (hauth : ¬ (new.updatedBy = "admin" ∧ cur.updatedBy ≠ "admin")) :
    resolveConflict isAdmin now cur new = some (mergePropertyData cur new now)
    ∧ ((cur.name ≠ "" ∨ new.name ≠ "") → (mergePropertyData cur new now).name ≠ "")
    ∧ ((cur.regNumber ≠ "" ∨ new.regNumber ≠ "") →
        (mergePropertyData cur new now).regNumber ≠ "")
    ∧ ((cur.description ≠ "" ∨ new.description ≠ "") →
        (mergePropertyData cur new now).description ≠ "")
    ∧ ((cur.location ≠ "" ∨ new.location ≠ "") →
        (mergePropertyData cur new now).location ≠ "")
    ∧ ((cur.type ≠ "" ∨ new.type ≠ "") → (mergePropertyData cur new now).type ≠ "")
    ∧ ((cur.finderContact ≠ "" ∨ new.finderContact ≠ "") →
        (mergePropertyData cur new now).finderContact ≠ "")
    ∧ ((cur.claimantName ≠ "" ∨ new.claimantName ≠ "") →
        (mergePropertyData cur new now).claimantName ≠ "")
    ∧ ((cur.claimantContact ≠ "" ∨ new.claimantContact ≠ "") →
        (mergePropertyData cur new now).claimantContact ≠ "")
    ∧ ((cur.claimProof ≠ "" ∨ new.claimProof ≠ "") →
        (mergePropertyData cur new now).claimProof ≠ "")
    ∧ ((cur.image ≠ "" ∨ new.image ≠ "") → (mergePropertyData cur new now).image ≠ "") := by
  refine ⟨?_, fun h => mergeField_ne_empty h, fun h => mergeField_ne_empty h,
    fun h => mergeField_ne_empty h, fun h => mergeField_ne_empty h,
    fun h => mergeField_ne_empty h, fun h => mergeField_ne_empty h,
    fun h => mergeField_ne_empty h, fun h => mergeField_ne_empty h,
    fun h => mergeField_ne_empty h, fun h => mergeField_ne_empty h⟩
  rw [resolveConflict_rules isAdmin now (by omega)]
  simp only []
  rw [repairMeta_of_ne_zero isAdmin now h0, repairMeta_of_ne_zero isAdmin now (by omega)]
  rw [if_neg hauth, if_neg (by omega), if_pos hts]

/-- C5 (witness): the amended theorem at concrete inputs — the local `name`
"Bag" survives the merge. -/
theorem field_union_amended_witness :
    resolveConflict false 400 sampleRecord newUnclaimed =
      some (mergePropertyData sampleRecord newUnclaimed 400) ∧
    (mergePropertyData sampleRecord newUnclaimed 400).name ≠ "" := by
  have h := field_union_amended false 400 sampleRecord newUnclaimed
    (by decide) (by decide) (by decide) (by decide)
  exact ⟨h.1, h.2.1 (Or.inl (by decide))⟩

/-! ### Claim C2 — merge idempotence -/

/-- C2 (counterexample): `mergeData(S, S) = S` fails, because the
equal-timestamp branch restamps every record with `updatedBy = 'merged'` and
`lastUpdated = Date.now()`. -/
theorem merge_idempotence_cex :
    mergeData false 200 [sampleRecord] [sampleRecord] ≠ [sampleRecord] := by decide

/-- C2 (amended): for a collection with pairwise-distinct identifiers,
`mergeData(S, S)` returns `S` sorted by id with every record's ten data
fields, `status` and `id` unchanged, but with `updatedBy` set to `'merged'`
and `lastUpdated` refreshed to the merge time; so idempotence holds only up to
that metadata restamping (and exactly when `S` is already id-sorted with
`updatedBy = 'merged'` and `lastUpdated` equal to the clock value). -/
theorem merge_idempotence_amended (isAdmin : Bool) (now : Nat)
    {S : List Property} (h : (S.map Property.id).Nodup) :
    mergeData isAdmin now S S =
      List.insertionSort idLe (S.map (selfMerged now)) :=
  mergeData_self isAdmin now h

/-- C2 (witness): the amended theorem at a one-record collection. -/
theorem merge_idempotence_amended_witness :
    mergeData false 200 [sampleRecord] [sampleRecord] =
      List.insertionSort idLe ([sampleRecord].map (selfMerged 200)) :=
  merge_idempotence_amended false 200 (by decide)

/-! ### Claim C4 — offline durability of drain -/

/-- C4 (code bug): drain a fully-successful queue built by offline
`add(bagAdded)`, `update([bikeRenamed, coat])`, `delete(2)` on the collection
`[bike, coat]`.  The queue does empty and entries are visited in FIFO order,
but the `update` entry is silently lost: `update(data)` queues the whole
collection *array* as `change.data` (line 778-782 of `sync-manager.js`),
while `applyChange` looks up `change.data.id`, which is `undefined` for an
array, so `findIndex` returns `-1` and the entry becomes a no-op that is
still removed from the queue.  The persisted collection keeps the stale
`bike` (name "Bike") instead of `bikeRenamed` (name "Red Bike"), so it does
not reflect the three operations in submission order. -/
theorem offline_drain_silently_drops_update :
    (processOfflineQueue true (fun _ => true) 50 preDrainState).offlineQueue = [] ∧
    (processOfflineQueue true (fun _ => true) 50 preDrainState).data =
      [bike, { bagAdded with id := 3 }] ∧
    bikeRenamed ∉ (processOfflineQueue true (fun _ => true) 50 preDrainState).data ∧
    bike.name = "Bike" ∧ bikeRenamed.name = "Red Bike" := by decide

/-! ### Claim C6 — offline mutations are queued, not applied -/

/-- C6 (counterexample): not every offline call resolves with a queued
result: `add(null)` while offline rejects with a validation error (the shape
check runs before the connectivity check), so "for every add, update, or
delete call made while connectivity is down … resolves (does not reject)" is
false as stated. -/
theorem offline_mutation_rejects_cex :
    add false 5 emptyState none = .error "Invalid property data" := by decide

/-- C6 (amended): for every offline call that passes input validation (a
non-null record for `add`, an array for `update`; `delete` validates
nothing), the operation appends exactly one entry to the persisted offline
queue, resolves with `{success: false, queued: true}`, and leaves the
persisted collection (and every other state component) unchanged. -/
theorem offline_mutations_queued (isAdmin : Bool) (σ : ManagerState) (now : Nat)
    (p : Property) (d : List Property) (pid : Nat) :
    add false now σ (some p) =
      .ok ({ σ with offlineQueue := σ.offlineQueue ++ [⟨"add", .record p, now⟩] },
           queuedOutcome)
    ∧ update isAdmin false now σ (some d) =
      .ok ({ σ with offlineQueue := σ.offlineQueue ++ [⟨"update", .arr d, now⟩] },
           queuedOutcome)
    ∧ delete false now σ pid =
      .ok ({ σ with offlineQueue :=
               σ.offlineQueue ++ [⟨"delete", .record (idOnly pid), now⟩] },
           queuedOutcome)
    ∧ queuedOutcome.success = false ∧ queuedOutcome.queued = true :=
  ⟨rfl, rfl, rfl, rfl, rfl⟩

/-! ### Claim C7 — identifier assignment -/

/-- C7: adding online and applying a queued `add` entry both assign the
identifier `max + 1` over the current collection: the assigned id is `1` on an
empty collection and otherwise `maxIdFold` is attained by some record and
bounds every record's id. -/
theorem identifier_assignment (σ : ManagerState) (now : Nat) (p q : Property)
    (l : List Property) (c : QueueEntry) (hc : c.type = "add")
    (hd : c.data = .record q) :
    (∀ st out, add true now σ (some p) = .ok (st, out) →
       out.property.map Property.id = some (maxIdFold σ.data + 1) ∧
       st.data = σ.data ++ [{ p with id := maxIdFold σ.data + 1 }])
    ∧ (applyChange l c).1 = l ++ [{ q with id := maxIdFold l + 1 }]
    ∧ (∀ m : List Property, (m = [] → maxIdFold m + 1 = 1) ∧
        (m ≠ [] → ∃ r ∈ m, maxIdFold m = r.id ∧ ∀ s ∈ m, s.id ≤ r.id)) := by
  refine ⟨?_, ?_, ?_⟩
  · intro st out h
    simp only [add, Bool.true_eq_false, if_false] at h
    rw [Except.ok.injEq, Prod.mk.injEq] at h
    obtain ⟨hst, hout⟩ := h
    subst hst; subst hout
    exact ⟨rfl, rfl⟩
  · unfold applyChange
    rw [if_pos hc, hd]
  · intro m
    refine ⟨fun hm => by subst hm; rfl, fun hm => maxIdFold_spec hm⟩

/-- C7 (witness): the theorem applied to a concrete queued `add` entry over
the two-record collection `[bike, coat]` (ids 1 and 2):
the appended record receives id `maxIdFold + 1 = 3`. -/
theorem identifier_assignment_witness :
    (applyChange [bike, coat] ⟨"add", .record bagAdded, 1⟩).1 =
      [bike, coat] ++ [{ bagAdded with id := maxIdFold [bike, coat] + 1 }] :=
  (identifier_assignment emptyState 0 blank bagAdded [bike, coat]
    ⟨"add", .record bagAdded, 1⟩ rfl rfl).2.1

/-! ### Claim C8 — identifier uniqueness invariant -/

/-- C8: starting from a collection with pairwise-distinct identifiers, every
state-producing operation — `add` while online, `applyChange` for any queued
entry, and `mergeData` with any incoming collection — again yields
pairwise-distinct identifiers. -/
theorem identifier_uniqueness (isAdmin : Bool) (now : Nat) (σ : ManagerState)
    (p : Property) (c : QueueEntry) (incoming : List Property)
    (h : (σ.data.map Property.id).Nodup) :
    (∀ st out, add true now σ (some p) = .ok (st, out) →
       (st.data.map Property.id).Nodup)
    ∧ (((applyChange σ.data c).1).map Property.id).Nodup
    ∧ ((mergeData isAdmin now σ.data incoming).map Property.id).Nodup := by
  refine ⟨?_, applyChange_ids_nodup c h, mergeData_ids_nodup isAdmin now σ.data incoming⟩
  intro st out hok
  simp only [add, Bool.true_eq_false, if_false] at hok
  rw [Except.ok.injEq, Prod.mk.injEq] at hok
  obtain ⟨hst, _⟩ := hok
  subst hst
  exact append_fresh_id_nodup p h

/-- C8 (witness): the theorem applied to a concrete state with distinct ids —
applying a queued `delete` entry keeps the identifiers duplicate-free. -/
theorem identifier_uniqueness_witness :
    (((applyChange [bike, coat] ⟨"delete", .record (idOnly 2), 3⟩).1).map
      Property.id).Nodup :=
  (identifier_uniqueness false 0 { emptyState with data := [bike, coat] } blank
    ⟨"delete", .record (idOnly 2), 3⟩ [] (by decide)).2.1

/-! ### Claim C9 — send never throws -/

/-- C9: for every message and every failure mode of the transport (channel
absent, `postMessage` throwing, the fallback `setItem` throwing),
`sendBroadcast` and `broadcastChange` return normally (`.ok`); the wrapped
bodies genuinely can fail, so the `try`/`catch` is what guarantees it. -/
theorem send_never_throws :
    (∀ (hasChannel postFails : Bool) (m : Message),
       (sendBroadcast hasChannel postFails m).isOk = true)
    ∧ (∀ (hasChannel postFails storeFails : Bool) (now : Nat) (σ : ManagerState)
         (d : List Property),
       (broadcastChange hasChannel postFails storeFails now σ d).isOk = true)
    ∧ (sendBroadcastBody true true ⟨"data_update", [], 0⟩).isOk = false
    ∧ (broadcastChangeBody false false true 0 emptyState []).isOk = false := by
  refine ⟨?_, ?_, rfl, rfl⟩
  · intro hc pf m
    unfold sendBroadcast
    cases sendBroadcastBody hc pf m <;> rfl
  · intro hc pf sf now σ d
    unfold broadcastChange
    cases broadcastChangeBody hc pf sf now σ d <;> rfl

/-! ### Claim C10 — stale-update gate -/

/-- C10 (counterexample): `lastKnownUpdate` is not monotonically
non-decreasing across message handling.  `saveData` overwrites it with the
local clock (`Date.now()`), so handling a fresh update (timestamp 150 >
lastKnownUpdate 100) while the local clock reads 50 *decreases*
`lastKnownUpdate` from 100 to 50.  (`lastKnownUpdate` can legitimately be
ahead of the local clock: `loadInitialData` reads it from the
`ring0_last_update` key, which line 214 stamps with a foreign message
timestamp.) -/
theorem stale_update_gate_cex :
    (handleDataUpdate false 50 aheadState [] 150).1.lastKnownUpdate <
      aheadState.lastKnownUpdate := by decide

/-- C10 (amended): a `data_update` whose timestamp is at or below
`lastKnownUpdate` is dropped whole — state unchanged (collection, persisted
keys, `lastKnownUpdate`) and no `sync_response` emitted — even if individual
records in it are newer; a fresh update sets `lastKnownUpdate` to the
save-time clock, so `lastKnownUpdate` is non-decreasing exactly when the
clock is not behind it. -/
theorem stale_update_gate_amended (isAdmin : Bool) (now : Nat) (σ : ManagerState)
    (data : List Property) (timestamp : Nat) :
    (timestamp ≤ σ.lastKnownUpdate →
       handleDataUpdate isAdmin now σ data timestamp = (σ, []))
    ∧ (σ.lastKnownUpdate < timestamp →
       (handleDataUpdate isAdmin now σ data timestamp).1.lastKnownUpdate = now)
    ∧ (σ.lastKnownUpdate ≤ now →
       σ.lastKnownUpdate ≤ (handleDataUpdate isAdmin now σ data timestamp).1.lastKnownUpdate) := by
  refine ⟨fun h => ?_, fun h => ?_, fun h => ?_⟩
  · unfold handleDataUpdate
    rw [if_pos h]
  · unfold handleDataUpdate
    rw [if_neg (by omega)]
    rfl
  · by_cases hts : timestamp ≤ σ.lastKnownUpdate
    · unfold handleDataUpdate
      rw [if_pos hts]
    · unfold handleDataUpdate
      rw [if_neg hts]
      exact h

/-- C10 (witness): the amended theorem at concrete states — a stale message
(timestamp 3 ≤ 5) is dropped whole, and a fresh message (timestamp 9 > 5)
sets `lastKnownUpdate` to the clock value 7 ≥ 5. -/
theorem stale_update_gate_amended_witness :
    handleDataUpdate false 7 { emptyState with lastKnownUpdate := 5 } [] 3 =
      ({ emptyState with lastKnownUpdate := 5 }, []) ∧
    (handleDataUpdate false 7 { emptyState with lastKnownUpdate := 5 } [] 9).1.lastKnownUpdate = 7 ∧
    5 ≤ (handleDataUpdate false 7 { emptyState with lastKnownUpdate := 5 } [] 9).1.lastKnownUpdate :=
  ⟨(stale_update_gate_amended false 7 { emptyState with lastKnownUpdate := 5 } [] 3).1
      (by decide),
   (stale_update_gate_amended false 7 { emptyState with lastKnownUpdate := 5 } [] 9).2.1
      (by decide),
   (stale_update_gate_amended false 7 { emptyState with lastKnownUpdate := 5 } [] 9).2.2
      (by decide)⟩

end RingZero
